import Mathlib

/-!
Shallow embedding of the CyberProfile repository's eligibility, pricing and
minting logic.

The authoritative implementation is the Solidity contract
`src/ARTIFACT_CyberProfile.sol` (a stock OpenZeppelin ERC-721 composition with
custom minting logic); the Express backend `src/server.js` keeps an in-memory
mirror of the minting parameters.  Both are modelled below.

Modelling notes (all justified against the source):
* All Solidity `uint256` quantities are modelled as `Nat`.  Solidity 0.8
  arithmetic reverts on overflow; the only increments in this code are
  `currentSupply++` (guarded by `currentSupply < maxSupply <= 2^256 - 1`) and
  `_tokenIdCounter++` (the counter always equals `currentSupply`, which is
  bounded by `maxSupply`), so no reachable computation wraps and `Nat`
  semantics coincide with `uint256` semantics on every reachable state.
* Addresses are modelled as `Nat`, with `0` playing the role of
  `address(0)`.
* Solidity mappings (default value zero/false) are modelled as total
  functions out of `Nat`.
* `msg.sender` authorization (`onlyOwner`, `onlyOracle`, `nonReentrant`) is
  not modelled: every operation below is the state transformer executed once
  its authorization modifiers pass.  `nonReentrant` is vacuous here because
  the embedding is sequential.
* The low-level treasury transfer `treasury.call{value: msg.value}("")` in
  `mint` is modelled as succeeding (an externally owned treasury account
  accepts plain transfers); ether accounting is outside the model.
* `_safeMint` (OpenZeppelin ERC721) reverts with "ERC721: mint to the zero
  address" when the recipient is the zero address; this check is modelled
  (`ZeroAddressMint` in `batchMint`; the external `mint` additionally has its
  own explicit `require(to != address(0))`).  The `_safeMint` check
  "token already minted" can never fire because token ids come from the
  strictly increasing `_tokenIdCounter`, and the `onERC721Received` hook is
  vacuous for externally owned recipients, so neither is modelled.
-/

namespace CyberProfile

/-- Pointwise update of a Solidity-style mapping. -/
def setMap {α : Type} (m : Nat → α) (k : Nat) (v : α) : Nat → α :=
  fun x => if x = k then v else m x

/-- The `MintingParams` struct of `CyberProfile.sol` (lines 24-32). -/
structure MintingParams where
  minFid : Nat
  maxFid : Nat
  baseMintPrice : Nat
  proMintPrice : Nat
  maxSupply : Nat
  currentSupply : Nat
  requireProForDiscount : Bool
deriving DecidableEq, Repr

/-- The contract storage relevant to the minting logic: the token id counter,
the minting parameters, the four per-fid/per-token mappings, the
administrative addresses, the royalty configuration, and the OpenZeppelin
`Pausable` flag. -/
structure ContractState where
  tokenIdCounter : Nat
  mintingParams : MintingParams
  hasMinted : Nat → Bool
  fidToTokenId : Nat → Nat
  tokenIdToFid : Nat → Nat
  isProUser : Nat → Bool
  tokenURIMap : Nat → String
  owners : Nat → Nat
  treasury : Nat
  oracle : Nat
  royaltyReceiver : Nat
  royaltyBasisPoints : Nat
  paused : Bool

/-- Distinct named failure conditions.  Each constructor corresponds to one
`require` revert string of the contract (noted in the comment). -/
inductive MintError where
  | MintingPaused        -- "Pausable: paused" (whenNotPaused modifier, _pause)
  | ExpectedPause        -- "Pausable: not paused" (_unpause)
  | ZeroAddressMint      -- "Cannot mint to zero address" / ERC721 zero mint
  | AlreadyMinted        -- "FID has already minted" / "FID already minted"
  | FidOutOfRange        -- "FID not in eligible range"
  | SupplyExhausted      -- "Max supply reached"
  | InsufficientPayment  -- "Insufficient payment"
  | ArrayLengthMismatch  -- "Array lengths must match"
  | InvalidPriceOrder    -- "Pro price must be <= base price"
  | SupplyBelowCurrent   -- "Cannot set max supply below current supply"
  | InvalidFidRange      -- "Invalid FID range"
  | InvalidAddress       -- "Invalid treasury/oracle/royalty address"
  | MaxSupplyZero        -- "Max supply must be > 0"
  | RoyaltyTooHigh       -- "Royalty too high (max 10%)"
deriving DecidableEq, Repr

/-- The state built by the constructor body (lines 103-118) once its
`require` checks have passed. -/
def initState (_treasury _oracle _minFid _maxFid _baseMintPrice _proMintPrice
    _maxSupply : Nat) : ContractState where
  tokenIdCounter := 0
  mintingParams :=
    { minFid := _minFid
      maxFid := _maxFid
      baseMintPrice := _baseMintPrice
      proMintPrice := _proMintPrice
      maxSupply := _maxSupply
      currentSupply := 0
      requireProForDiscount := true }
  hasMinted := fun _ => false
  fidToTokenId := fun _ => 0
  tokenIdToFid := fun _ => 0
  isProUser := fun _ => false
  tokenURIMap := fun _ => ""
  owners := fun _ => 0
  treasury := _treasury
  oracle := _oracle
  royaltyReceiver := _treasury
  royaltyBasisPoints := 666
  paused := false

/-- The constructor (lines 90-119): validates the treasury address, the price
ordering and the positivity of the supply cap, then builds the initial
state.  Note that it performs NO check relating `_minFid` and `_maxFid`. -/
def constructorFn (_treasury _oracle _minFid _maxFid _baseMintPrice
    _proMintPrice _maxSupply : Nat) : Except MintError ContractState :=
  if _treasury = 0 then .error .InvalidAddress
  else if _baseMintPrice < _proMintPrice then .error .InvalidPriceOrder
  else if _maxSupply = 0 then .error .MaxSupplyZero
  else .ok (initState _treasury _oracle _minFid _maxFid _baseMintPrice
    _proMintPrice _maxSupply)

/-- `getMintPrice(uint256 fid, bool isPro)` (lines 196-201). -/
def getMintPrice (s : ContractState) (fid : Nat) (isPro : Bool) : Nat :=
  if isPro && s.mintingParams.requireProForDiscount then
    s.mintingParams.proMintPrice
  else
    s.mintingParams.baseMintPrice

/-- `isEligible(uint256 fid)` (lines 206-212). -/
def isEligible (s : ContractState) (fid : Nat) : Bool :=
  !s.hasMinted fid &&
  decide (s.mintingParams.minFid ≤ fid) &&
  decide (fid ≤ s.mintingParams.maxFid) &&
  decide (s.mintingParams.currentSupply < s.mintingParams.maxSupply) &&
  !s.paused

/-- `mint(address to, string tokenURI, uint256 fid)` (lines 129-159).
The `whenNotPaused` modifier runs first, then the body's `require`
statements in source order, then the commit.  Returns the post-state and the
assigned token id. -/
def mint (s : ContractState) (toAddr : Nat) (uri : String) (fid : Nat)
    (value : Nat) : Except MintError (ContractState × Nat) :=
  if s.paused then .error .MintingPaused
  else if toAddr = 0 then .error .ZeroAddressMint
  else if s.hasMinted fid then .error .AlreadyMinted
  else if ¬ (s.mintingParams.minFid ≤ fid ∧ fid ≤ s.mintingParams.maxFid) then
    .error .FidOutOfRange
  else if ¬ (s.mintingParams.currentSupply < s.mintingParams.maxSupply) then
    .error .SupplyExhausted
  else if value < getMintPrice s fid (s.isProUser fid) then
    .error .InsufficientPayment
  else
    let tokenId := s.tokenIdCounter
    .ok ({ s with
      tokenIdCounter := tokenId + 1
      owners := setMap s.owners tokenId toAddr
      tokenURIMap := setMap s.tokenURIMap tokenId uri
      hasMinted := setMap s.hasMinted fid true
      fidToTokenId := setMap s.fidToTokenId fid tokenId
      tokenIdToFid := setMap s.tokenIdToFid tokenId fid
      mintingParams := { s.mintingParams with
        currentSupply := s.mintingParams.currentSupply + 1 } }, tokenId)

/-- The loop body of `batchMint` (lines 174-188), one entry
`(recipient, tokenURI, fid)` at a time.  Per entry it requires only that the
fid has not minted and that supply remains below the cap; the recorded
zero-address failure comes from the `_safeMint` call inside the loop.
A failure anywhere aborts the whole batch (Solidity revert). -/
def batchMintLoop (s : ContractState) :
    List (Nat × String × Nat) → Except MintError ContractState
  | [] => .ok s
  | (toAddr, uri, fid) :: rest =>
    if s.hasMinted fid then .error .AlreadyMinted
    else if ¬ (s.mintingParams.currentSupply < s.mintingParams.maxSupply) then
      .error .SupplyExhausted
    else if toAddr = 0 then .error .ZeroAddressMint
    else
      let tokenId := s.tokenIdCounter
      batchMintLoop { s with
        tokenIdCounter := tokenId + 1
        owners := setMap s.owners tokenId toAddr
        tokenURIMap := setMap s.tokenURIMap tokenId uri
        hasMinted := setMap s.hasMinted fid true
        fidToTokenId := setMap s.fidToTokenId fid tokenId
        tokenIdToFid := setMap s.tokenIdToFid tokenId fid
        mintingParams := { s.mintingParams with
          currentSupply := s.mintingParams.currentSupply + 1 } } rest

/-- `batchMint(address[] recipients, string[] tokenURIs, uint256[] fids)`
(lines 164-189, owner only).  Checks the array lengths, then runs the loop.
It has no `whenNotPaused` modifier, no FID-range check and no payment. -/
def batchMint (s : ContractState) (recipients : List Nat)
    (tokenURIs : List String) (fids : List Nat) :
    Except MintError ContractState :=
  if recipients.length = tokenURIs.length ∧ recipients.length = fids.length
  then batchMintLoop s (recipients.zip (tokenURIs.zip fids))
  else .error .ArrayLengthMismatch

/-- `updateMintingParams` (lines 242-260, owner only). -/
def updateMintingParams (s : ContractState) (_minFid _maxFid _baseMintPrice
    _proMintPrice _maxSupply : Nat) : Except MintError ContractState :=
  if _baseMintPrice < _proMintPrice then .error .InvalidPriceOrder
  else if _maxSupply < s.mintingParams.currentSupply then
    .error .SupplyBelowCurrent
  else if _maxFid < _minFid then .error .InvalidFidRange
  else .ok { s with mintingParams := { s.mintingParams with
    minFid := _minFid
    maxFid := _maxFid
    baseMintPrice := _baseMintPrice
    proMintPrice := _proMintPrice
    maxSupply := _maxSupply } }

/-- `updateFidRange` (lines 265-269, owner only). -/
def updateFidRange (s : ContractState) (_minFid _maxFid : Nat) :
    Except MintError ContractState :=
  if _maxFid < _minFid then .error .InvalidFidRange
  else .ok { s with mintingParams := { s.mintingParams with
    minFid := _minFid
    maxFid := _maxFid } }

/-- `updateMintPrices` (lines 274-278, owner only). -/
def updateMintPrices (s : ContractState) (_baseMintPrice _proMintPrice : Nat) :
    Except MintError ContractState :=
  if _baseMintPrice < _proMintPrice then .error .InvalidPriceOrder
  else .ok { s with mintingParams := { s.mintingParams with
    baseMintPrice := _baseMintPrice
    proMintPrice := _proMintPrice } }

/-- `updateProStatus` (lines 283-286, oracle or owner). -/
def updateProStatus (s : ContractState) (fid : Nat) (isPro : Bool) :
    Except MintError ContractState :=
  .ok { s with isProUser := setMap s.isProUser fid isPro }

/-- The loop of `batchUpdateProStatus` (lines 294-297). -/
def batchUpdateProStatusLoop (s : ContractState) :
    List (Nat × Bool) → ContractState
  | [] => s
  | (fid, st) :: rest =>
    batchUpdateProStatusLoop
      { s with isProUser := setMap s.isProUser fid st } rest

/-- `batchUpdateProStatus` (lines 291-298, oracle or owner). -/
def batchUpdateProStatus (s : ContractState) (fids : List Nat)
    (statuses : List Bool) : Except MintError ContractState :=
  if fids.length = statuses.length then
    .ok (batchUpdateProStatusLoop s (fids.zip statuses))
  else .error .ArrayLengthMismatch

/-- `setRequireProForDiscount` (lines 303-305, owner only). -/
def setRequireProForDiscount (s : ContractState) (required : Bool) :
    Except MintError ContractState :=
  .ok { s with mintingParams := { s.mintingParams with
    requireProForDiscount := required } }

/-- `updateOracle` (lines 310-314, owner only). -/
def updateOracle (s : ContractState) (newOracle : Nat) :
    Except MintError ContractState :=
  if newOracle = 0 then .error .InvalidAddress
  else .ok { s with oracle := newOracle }

/-- `updateTreasury` (lines 319-323, owner only). -/
def updateTreasury (s : ContractState) (newTreasury : Nat) :
    Except MintError ContractState :=
  if newTreasury = 0 then .error .InvalidAddress
  else .ok { s with treasury := newTreasury }

/-- `updateRoyalty` (lines 330-339, owner only). -/
def updateRoyalty (s : ContractState) (receiver basisPoints : Nat) :
    Except MintError ContractState :=
  if receiver = 0 then .error .InvalidAddress
  else if 1000 < basisPoints then .error .RoyaltyTooHigh
  else .ok { s with
    royaltyReceiver := receiver
    royaltyBasisPoints := basisPoints }

/-- `pause` (lines 351-353, owner only).  OpenZeppelin `_pause` carries a
`whenNotPaused` modifier, so pausing an already paused contract reverts with
"Pausable: paused". -/
def pause (s : ContractState) : Except MintError ContractState :=
  if s.paused then .error .MintingPaused
  else .ok { s with paused := true }

/-- `unpause` (lines 358-360, owner only).  OpenZeppelin `_unpause` carries a
`whenPaused` modifier. -/
def unpause (s : ContractState) : Except MintError ContractState :=
  if s.paused then .ok { s with paused := false }
  else .error .ExpectedPause

/-- The alphabet of state-mutating contract operations. -/
inductive Op where
  | mint (toAddr : Nat) (uri : String) (fid : Nat) (value : Nat)
  | batchMint (recipients : List Nat) (tokenURIs : List String)
      (fids : List Nat)
  | updateMintingParams (_minFid _maxFid _baseMintPrice _proMintPrice
      _maxSupply : Nat)
  | updateFidRange (_minFid _maxFid : Nat)
  | updateMintPrices (_baseMintPrice _proMintPrice : Nat)
  | updateProStatus (fid : Nat) (isPro : Bool)
  | batchUpdateProStatus (fids : List Nat) (statuses : List Bool)
  | setRequireProForDiscount (required : Bool)
  | updateOracle (newOracle : Nat)
  | updateTreasury (newTreasury : Nat)
  | updateRoyalty (receiver basisPoints : Nat)
  | pause
  | unpause

/-- Run one operation, returning the new state or the revert reason. -/
def applyOp (s : ContractState) : Op → Except MintError ContractState
  | .mint toAddr uri fid value => (mint s toAddr uri fid value).map Prod.fst
  | .batchMint recipients tokenURIs fids =>
      batchMint s recipients tokenURIs fids
  | .updateMintingParams a b c d e => updateMintingParams s a b c d e
  | .updateFidRange a b => updateFidRange s a b
  | .updateMintPrices a b => updateMintPrices s a b
  | .updateProStatus fid isPro => updateProStatus s fid isPro
  | .batchUpdateProStatus fids statuses =>
      batchUpdateProStatus s fids statuses
  | .setRequireProForDiscount required => setRequireProForDiscount s required
  | .updateOracle a => updateOracle s a
  | .updateTreasury a => updateTreasury s a
  | .updateRoyalty a b => updateRoyalty s a b
  | .pause => pause s
  | .unpause => unpause s

/-- Transaction semantics: a reverted operation leaves the state unchanged. -/
def step (s : ContractState) (op : Op) : ContractState :=
  match applyOp s op with
  | .ok s' => s'
  | .error _ => s

/-- Run a sequence of operations. -/
def run (s : ContractState) (ops : List Op) : ContractState :=
  ops.foldl step s

/-- A state is reachable when it is a constructor output followed by any
sequence of (possibly reverting) operations. -/
inductive Reachable : ContractState → Prop where
  | init (t o mn mx b p ms : Nat) (s : ContractState)
      (h : constructorFn t o mn mx b p ms = .ok s) : Reachable s
  | step (s : ContractState) (op : Op) (h : Reachable s) :
      Reachable (step s op)

/-- Whether a state-returning operation succeeded. -/
def isOk {α : Type} : Except MintError α → Bool
  | .ok _ => true
  | .error _ => false

/-! ### The Express backend's in-memory mirror (`src/server.js`) -/

/-- The backend's in-memory `mintingParameters` object (server.js lines
42-51).  Prices are wei amounts (ethers `BigNumber`, an exact integer).  The
display-only field `proDiscountPercent` is computed with JavaScript
floating-point arithmetic and read by no eligibility, pricing or update
logic, so it is not part of the model. -/
structure ServerParams where
  minFid : Nat
  maxFid : Nat
  baseMintPrice : Nat
  proMintPrice : Nat
  maxSupply : Nat
  currentSupply : Nat
  paused : Bool
deriving DecidableEq, Repr

/-- The backend's initial parameters (server.js lines 42-51):
`parseEther` of 0.002 and 0.001 ether in wei. -/
def serverInitParams : ServerParams where
  minFid := 1
  maxFid := 100000
  baseMintPrice := 2000000000000000
  proMintPrice := 1000000000000000
  maxSupply := 10000
  currentSupply := 0
  paused := false

/-- The eligibility expression of `GET /api/check-eligibility/:fid`
(server.js lines 571-574); the identical expression appears in
`GET /api/user/:fid` (lines 471-474).  The backend keeps no per-fid mint
record, so the expression has no `hasMinted` conjunct. -/
def serverCheckEligibility (p : ServerParams) (fid : Nat) : Bool :=
  decide (p.minFid ≤ fid) &&
  decide (fid ≤ p.maxFid) &&
  decide (p.currentSupply < p.maxSupply) &&
  !p.paused

/-- The price selection of `GET /api/user/:fid` (server.js lines 476-478). -/
def serverMintPrice (p : ServerParams) (isPro : Bool) : Nat :=
  if isPro then p.proMintPrice else p.baseMintPrice

/-- `POST /api/admin/update-parameters` (server.js lines 655-685): each
field present in the request body is assigned unconditionally — the handler
performs no validation of the price ordering or of the FID range and never
rejects a request.  Numeric fields are modelled as already-parsed integers
(`parseInt`/`parseEther` are exact on the well-formed inputs the admin UI
sends). -/
def serverUpdateParameters (p : ServerParams)
    (minFid? maxFid? baseMintPrice? proMintPrice? maxSupply? : Option Nat)
    (paused? : Option Bool) : ServerParams :=
  let p := match minFid? with
    | some v => { p with minFid := v }
    | none => p
  let p := match maxFid? with
    | some v => { p with maxFid := v }
    | none => p
  let p := match baseMintPrice? with
    | some v => { p with baseMintPrice := v }
    | none => p
  let p := match proMintPrice? with
    | some v => { p with proMintPrice := v }
    | none => p
  let p := match maxSupply? with
    | some v => { p with maxSupply := v }
    | none => p
  match paused? with
  | some v => { p with paused := v }
  | none => p

/-! ### Concrete states used by witnesses and counterexamples -/

/-- The deployment of the spec's concrete scenario: treasury 1, oracle 2,
fid range 1..100, base price 10, pro price 5, max supply 100. -/
def demoState : ContractState := initState 1 2 1 100 10 5 100

/-- The state after the scenario's first mint: fid 50 minted to address 3
with token id 0. -/
def demoAfter : ContractState := { demoState with
  tokenIdCounter := 1
  owners := setMap demoState.owners 0 3
  tokenURIMap := setMap demoState.tokenURIMap 0 "u"
  hasMinted := setMap demoState.hasMinted 50 true
  fidToTokenId := setMap demoState.fidToTokenId 50 0
  tokenIdToFid := setMap demoState.tokenIdToFid 0 50
  mintingParams := { demoState.mintingParams with currentSupply := 1 } }

/-- A deployment whose constructor arguments set `minFid = 0`: the
constructor accepts it, so fid 0 is inside the eligible range. -/
def zeroFidState : ContractState := initState 1 2 0 10 5 3 100

/-! ### Basic inversion and preservation lemmas -/

/-- Inversion of a successful `mint`: all six checks passed, the token id is
the old counter, and the post-state is the committed update. -/
theorem mint_ok_inv {s : ContractState} {toAddr : Nat} {uri : String}
    {fid value : Nat} {s' : ContractState} {t : Nat}
    (h : mint s toAddr uri fid value = Except.ok (s', t)) :
    s.paused = false ∧ toAddr ≠ 0 ∧ s.hasMinted fid = false ∧
    s.mintingParams.minFid ≤ fid ∧ fid ≤ s.mintingParams.maxFid ∧
    s.mintingParams.currentSupply < s.mintingParams.maxSupply ∧
    getMintPrice s fid (s.isProUser fid) ≤ value ∧
    t = s.tokenIdCounter ∧
    s' = { s with
      tokenIdCounter := s.tokenIdCounter + 1
      owners := setMap s.owners s.tokenIdCounter toAddr
      tokenURIMap := setMap s.tokenURIMap s.tokenIdCounter uri
      hasMinted := setMap s.hasMinted fid true
      fidToTokenId := setMap s.fidToTokenId fid s.tokenIdCounter
      tokenIdToFid := setMap s.tokenIdToFid s.tokenIdCounter fid
      mintingParams := { s.mintingParams with
        currentSupply := s.mintingParams.currentSupply + 1 } } := by
  unfold mint at h
  repeat' split at h
  any_goals exact Except.noConfusion h
  injection h with h
  injection h with hs ht
  subst hs
  subst ht
  simp_all [not_lt]

/-- A successful `batchMint` loop leaves every `MintingParams` field other
than `currentSupply` unchanged, leaves the pause flag unchanged, never
clears a `hasMinted` flag, and never decreases the token id counter. -/
theorem batchMintLoop_inv (l : List (Nat × String × Nat)) :
    ∀ s s' : ContractState, batchMintLoop s l = Except.ok s' →
      s'.mintingParams.minFid = s.mintingParams.minFid ∧
      s'.mintingParams.maxFid = s.mintingParams.maxFid ∧
      s'.mintingParams.baseMintPrice = s.mintingParams.baseMintPrice ∧
      s'.mintingParams.proMintPrice = s.mintingParams.proMintPrice ∧
      s'.mintingParams.maxSupply = s.mintingParams.maxSupply ∧
      s'.mintingParams.requireProForDiscount =
        s.mintingParams.requireProForDiscount ∧
      s'.paused = s.paused ∧
      (∀ f, s.hasMinted f = true → s'.hasMinted f = true) ∧
      s.tokenIdCounter ≤ s'.tokenIdCounter := by
  induction l with
  | nil =>
    intro s s' h
    injection h with h
    subst h
    simp
  | cons e rest ih =>
    intro s s' h
    obtain ⟨toAddr, uri, fid⟩ := e
    unfold batchMintLoop at h
    repeat' split at h
    any_goals exact Except.noConfusion h
    obtain ⟨h1, h2, h3, h4, h5, h6, h7, h8, h9⟩ := ih _ _ h
    refine ⟨by simpa using h1, by simpa using h2, by simpa using h3,
      by simpa using h4, by simpa using h5, by simpa using h6,
      by simpa using h7, ?_, ?_⟩
    · intro f hf
      apply h8
      simp [setMap]
      exact Or.inr hf
    · calc s.tokenIdCounter ≤ s.tokenIdCounter + 1 := Nat.le_succ _
        _ ≤ s'.tokenIdCounter := by simpa using h9

/-- The `batchUpdateProStatus` loop touches only the `isProUser` mapping. -/
theorem batchUpdateProStatusLoop_inv (l : List (Nat × Bool)) :
    ∀ s : ContractState,
      (batchUpdateProStatusLoop s l).hasMinted = s.hasMinted ∧
      (batchUpdateProStatusLoop s l).tokenIdCounter = s.tokenIdCounter ∧
      (batchUpdateProStatusLoop s l).mintingParams = s.mintingParams := by
  induction l with
  | nil => intro s; exact ⟨rfl, rfl, rfl⟩
  | cons e rest ih =>
    intro s
    obtain ⟨fid, st⟩ := e
    unfold batchUpdateProStatusLoop
    obtain ⟨h1, h2, h3⟩ := ih { s with isProUser := setMap s.isProUser fid st }
    exact ⟨h1, h2, h3⟩

/-- Every successful operation preserves set `hasMinted` flags, never
decreases the token id counter, and preserves the price-ordering and
FID-range invariants. -/
theorem applyOp_ok_inv {s : ContractState} {op : Op} {s' : ContractState}
    (h : applyOp s op = Except.ok s') :
    (∀ f, s.hasMinted f = true → s'.hasMinted f = true) ∧
    s.tokenIdCounter ≤ s'.tokenIdCounter ∧
    (s.mintingParams.proMintPrice ≤ s.mintingParams.baseMintPrice →
      s'.mintingParams.proMintPrice ≤ s'.mintingParams.baseMintPrice) ∧
    (s.mintingParams.minFid ≤ s.mintingParams.maxFid →
      s'.mintingParams.minFid ≤ s'.mintingParams.maxFid) := by
  cases op with
  | mint toAddr uri fid value =>
    simp only [applyOp] at h
    cases hm : mint s toAddr uri fid value with
    | error e => simp [hm, Except.map] at h
    | ok p =>
      obtain ⟨s1, t⟩ := p
      rw [hm] at h
      simp only [Except.map] at h
      injection h with h
      subst h
      obtain ⟨-, -, -, -, -, -, -, -, hs⟩ := mint_ok_inv hm
      subst hs
      refine ⟨?_, Nat.le_succ _, ?_, ?_⟩
      · intro f hf
        simp [setMap]
        exact Or.inr hf
      · intro hp; simpa using hp
      · intro hp; simpa using hp
  | batchMint recipients tokenURIs fids =>
    simp only [applyOp] at h
    unfold batchMint at h
    split at h
    · obtain ⟨h1, h2, h3, h4, h5, h6, h7, h8, h9⟩ := batchMintLoop_inv _ _ _ h
      exact ⟨h8, h9, by omega, by omega⟩
    · exact Except.noConfusion h
  | updateMintingParams a b c d e =>
    simp only [applyOp] at h
    unfold updateMintingParams at h
    repeat' split at h
    any_goals exact Except.noConfusion h
    injection h with h
    subst h
    refine ⟨fun f hf => hf, Nat.le_refl _, ?_, ?_⟩ <;> simp_all [not_lt]
  | updateFidRange a b =>
    simp only [applyOp] at h
    unfold updateFidRange at h
    split at h
    · exact Except.noConfusion h
    · injection h with h
      subst h
      refine ⟨fun f hf => hf, Nat.le_refl _, ?_, ?_⟩ <;> simp_all [not_lt]
  | updateMintPrices a b =>
    simp only [applyOp] at h
    unfold updateMintPrices at h
    split at h
    · exact Except.noConfusion h
    · injection h with h
      subst h
      refine ⟨fun f hf => hf, Nat.le_refl _, ?_, ?_⟩ <;> simp_all [not_lt]
  | updateProStatus fid isPro =>
    simp only [applyOp] at h
    unfold updateProStatus at h
    injection h with h
    subst h
    exact ⟨fun f hf => hf, Nat.le_refl _, fun hp => hp, fun hp => hp⟩
  | batchUpdateProStatus fids statuses =>
    simp only [applyOp] at h
    unfold batchUpdateProStatus at h
    split at h
    · injection h with h
      subst h
      obtain ⟨h1, h2, h3⟩ := batchUpdateProStatusLoop_inv (fids.zip statuses) s
      exact ⟨fun f hf => by rw [h1]; exact hf, by omega, by rw [h3]; omega,
        by rw [h3]; omega⟩
    · exact Except.noConfusion h
  | setRequireProForDiscount required =>
    simp only [applyOp] at h
    unfold setRequireProForDiscount at h
    injection h with h
    subst h
    exact ⟨fun f hf => hf, Nat.le_refl _, fun hp => hp, fun hp => hp⟩
  | updateOracle a =>
    simp only [applyOp] at h
    unfold updateOracle at h
    split at h
    · exact Except.noConfusion h
    · injection h with h
      subst h
      exact ⟨fun f hf => hf, Nat.le_refl _, fun hp => hp, fun hp => hp⟩
  | updateTreasury a =>
    simp only [applyOp] at h
    unfold updateTreasury at h
    split at h
    · exact Except.noConfusion h
    · injection h with h
      subst h
      exact ⟨fun f hf => hf, Nat.le_refl _, fun hp => hp, fun hp => hp⟩
  | updateRoyalty a b =>
    simp only [applyOp] at h
    unfold updateRoyalty at h
    repeat' split at h
    any_goals exact Except.noConfusion h
    injection h with h
    subst h
    exact ⟨fun f hf => hf, Nat.le_refl _, fun hp => hp, fun hp => hp⟩
  | pause =>
    simp only [applyOp] at h
    unfold pause at h
    split at h
    · exact Except.noConfusion h
    · injection h with h
      subst h
      exact ⟨fun f hf => hf, Nat.le_refl _, fun hp => hp, fun hp => hp⟩
  | unpause =>
    simp only [applyOp] at h
    unfold unpause at h
    split at h
    · injection h with h
      subst h
      exact ⟨fun f hf => hf, Nat.le_refl _, fun hp => hp, fun hp => hp⟩
    · exact Except.noConfusion h

/-- The transaction-level `step` enjoys the same preservation facts (a
reverted operation leaves the state unchanged). -/
theorem step_inv (s : ContractState) (op : Op) :
    (∀ f, s.hasMinted f = true → (step s op).hasMinted f = true) ∧
    s.tokenIdCounter ≤ (step s op).tokenIdCounter ∧
    (s.mintingParams.proMintPrice ≤ s.mintingParams.baseMintPrice →
      (step s op).mintingParams.proMintPrice ≤
        (step s op).mintingParams.baseMintPrice) ∧
    (s.mintingParams.minFid ≤ s.mintingParams.maxFid →
      (step s op).mintingParams.minFid ≤ (step s op).mintingParams.maxFid)
    := by
  unfold step
  cases h : applyOp s op with
  | ok s' => exact applyOp_ok_inv h
  | error e =>
    exact ⟨fun f hf => hf, Nat.le_refl _, fun hp => hp, fun hp => hp⟩

/-- `run` preserves the same facts along any operation sequence. -/
theorem run_inv (ops : List Op) :
    ∀ s : ContractState,
      (∀ f, s.hasMinted f = true → (run s ops).hasMinted f = true) ∧
      s.tokenIdCounter ≤ (run s ops).tokenIdCounter ∧
      (s.mintingParams.proMintPrice ≤ s.mintingParams.baseMintPrice →
        (run s ops).mintingParams.proMintPrice ≤
          (run s ops).mintingParams.baseMintPrice) ∧
      (s.mintingParams.minFid ≤ s.mintingParams.maxFid →
        (run s ops).mintingParams.minFid ≤ (run s ops).mintingParams.maxFid)
    := by
  induction ops with
  | nil =>
    intro s
    exact ⟨fun f hf => hf, Nat.le_refl _, fun hp => hp, fun hp => hp⟩
  | cons op rest ih =>
    intro s
    obtain ⟨s1, s2, s3, s4⟩ := step_inv s op
    obtain ⟨r1, r2, r3, r4⟩ := ih (step s op)
    refine ⟨fun f hf => r1 f (s1 f hf), le_trans s2 r2,
      fun hp => r3 (s3 hp), fun hp => r4 (s4 hp)⟩

/-- Inversion of a successful constructor call. -/
theorem constructorFn_ok_inv {t o mn mx b p ms : Nat} {s : ContractState}
    (h : constructorFn t o mn mx b p ms = Except.ok s) :
    t ≠ 0 ∧ p ≤ b ∧ ms ≠ 0 ∧ s = initState t o mn mx b p ms := by
  unfold constructorFn at h
  repeat' split at h
  any_goals exact Except.noConfusion h
  injection h with h
  subst h
  simp_all [not_lt]

/-- The price-ordering invariant holds in every reachable state. -/
theorem reachable_price_inv {s : ContractState} (h : Reachable s) :
    s.mintingParams.proMintPrice ≤ s.mintingParams.baseMintPrice := by
  induction h with
  | init t o mn mx b p ms s h =>
    obtain ⟨-, hpb, -, hs⟩ := constructorFn_ok_inv h
    subst hs
    simpa [initState] using hpb
  | step s op h ih => exact (step_inv s op).2.2.1 ih

/-! ### Claim theorems -/

/-- C1: for every fid, parameter snapshot and per-fid record, `isEligible`
returns true if and only if the fid lies in the inclusive range
`[minFid, maxFid]`, the fid's `hasMinted` flag is false, the contract is not
paused, and `currentSupply < maxSupply` (a supply ceiling is always
configured on the contract: the constructor requires `maxSupply > 0`); in
particular every fid with `hasMinted = true` is ineligible. -/
theorem claim_C1_isEligible_characterization :
    ∀ (s : ContractState) (fid : Nat),
      (isEligible s fid = true ↔
        (s.mintingParams.minFid ≤ fid ∧ fid ≤ s.mintingParams.maxFid ∧
         s.hasMinted fid = false ∧ s.paused = false ∧
         s.mintingParams.currentSupply < s.mintingParams.maxSupply)) ∧
      (s.hasMinted fid = true → isEligible s fid = false) := by
  intro s fid
  constructor
  · unfold isEligible
    simp only [Bool.and_eq_true, Bool.not_eq_true', decide_eq_true_eq]
    tauto
  · intro h
    unfold isEligible
    simp [h]

/-- Witness for C1: after the demo mint, fid 50 has minted and is no longer
eligible. -/
theorem claim_C1_witness :
    demoAfter.hasMinted 50 = true ∧ isEligible demoAfter 50 = false :=
  ⟨rfl, (claim_C1_isEligible_characterization demoAfter 50).2 rfl⟩

/-- C2: `getMintPrice` returns `proMintPrice` exactly when `isPro` and
`requireProForDiscount` both hold, and `baseMintPrice` in every other
case. -/
theorem claim_C2_getMintPrice_cases :
    ∀ (s : ContractState) (fid : Nat) (isPro : Bool),
      (isPro = true ∧ s.mintingParams.requireProForDiscount = true →
        getMintPrice s fid isPro = s.mintingParams.proMintPrice) ∧
      (isPro = false ∨ s.mintingParams.requireProForDiscount = false →
        getMintPrice s fid isPro = s.mintingParams.baseMintPrice) := by
  intro s fid isPro
  constructor
  · rintro ⟨h1, h2⟩
    simp [getMintPrice, h1, h2]
  · rintro (h | h) <;> simp [getMintPrice, h]

/-- Witness for C2: on the demo deployment a Pro user pays the Pro price. -/
theorem claim_C2_witness :
    (true = true ∧ demoState.mintingParams.requireProForDiscount = true) ∧
    getMintPrice demoState 7 true = demoState.mintingParams.proMintPrice :=
  ⟨⟨rfl, rfl⟩, (claim_C2_getMintPrice_cases demoState 7 true).1 ⟨rfl, rfl⟩⟩

/-- Counterexample to C3 as stated: after a successful mint for fid 50, if
the owner pauses the contract, the next `mint` for fid 50 fails with
`MintingPaused` (the `whenNotPaused` modifier runs before the
`hasMinted` check), not with `AlreadyMinted` as the claim requires of every
subsequent attempt. -/
theorem claim_C3_counterexample :
    mint demoState 3 "u" 50 10 = Except.ok (demoAfter, 0) ∧
    mint (run demoAfter [Op.pause]) 3 "u" 50 10 =
      Except.error MintError.MintingPaused ∧
    MintError.MintingPaused ≠ MintError.AlreadyMinted :=
  ⟨rfl, rfl, by decide⟩

/-- C3 (amended): once a fid has minted, any later `mint` for it fails with
`AlreadyMinted` provided the contract is not paused at that moment and the
recipient is nonzero — in particular after arbitrary intervening operations
such as supply or FID-range parameter changes; and no operation ever clears
a `hasMinted` flag (the false-to-true transition happens at most once and
never reverses). -/
theorem claim_C3_already_minted_persists :
    (∀ (s : ContractState) (fid : Nat) (ops : List Op) (toAddr : Nat)
        (uri : String) (value : Nat),
      s.hasMinted fid = true → (run s ops).paused = false → toAddr ≠ 0 →
      mint (run s ops) toAddr uri fid value =
        Except.error MintError.AlreadyMinted) ∧
    (∀ (s : ContractState) (op : Op) (fid : Nat),
      s.hasMinted fid = true → (step s op).hasMinted fid = true) := by
  constructor
  · intro s fid ops toAddr uri value hm hp hto
    have hmm : (run s ops).hasMinted fid = true := (run_inv ops s).1 fid hm
    unfold mint
    simp [hp, hto, hmm]
  · intro s op fid hm
    exact (step_inv s op).1 fid hm

/-- Witness for C3: after the demo mint of fid 50, even once the FID range
has been moved to 200..300, minting fid 50 again fails with
`AlreadyMinted`; and the pause operation keeps the flag set. -/
theorem claim_C3_witness :
    (demoAfter.hasMinted 50 = true ∧
     (run demoAfter [Op.updateFidRange 200 300]).paused = false ∧
     (3 : Nat) ≠ 0 ∧
     mint (run demoAfter [Op.updateFidRange 200 300]) 3 "u" 50 10 =
       Except.error MintError.AlreadyMinted) ∧
    (step demoAfter Op.pause).hasMinted 50 = true :=
  ⟨⟨rfl, rfl, by decide,
    claim_C3_already_minted_persists.1 demoAfter 50
      [Op.updateFidRange 200 300] 3 "u" 10 rfl rfl (by decide)⟩,
   claim_C3_already_minted_persists.2 demoAfter Op.pause 50 rfl⟩

/-- C4: in every reachable state the Pro price never exceeds the base
price, so `getMintPrice` with `isPro = true` never exceeds `getMintPrice`
with `isPro = false` on the same snapshot.  The invariant is established by
the constructor's price check and preserved by `updateMintingParams` and
`updateMintPrices` (the only operations that write prices). -/
theorem claim_C4_price_ordering :
    ∀ (s : ContractState) (fid : Nat), Reachable s →
      getMintPrice s fid true ≤ getMintPrice s fid false := by
  intro s fid h
  have hinv := reachable_price_inv h
  cases hreq : s.mintingParams.requireProForDiscount <;>
    simp [getMintPrice, hreq, hinv]

/-- Witness for C4: the demo deployment is reachable and its Pro price 5 is
below its base price 10. -/
theorem claim_C4_witness :
    Reachable demoState ∧
    getMintPrice demoState 7 true ≤ getMintPrice demoState 7 false :=
  ⟨Reachable.init 1 2 1 100 10 5 100 demoState rfl,
   claim_C4_price_ordering demoState 7
     (Reachable.init 1 2 1 100 10 5 100 demoState rfl)⟩

/-- A reverted operation leaves the state unchanged. -/
theorem step_eq_self_of_isOk_false {s : ContractState} {op : Op}
    (h : isOk (applyOp s op) = false) : step s op = s := by
  unfold step
  cases happ : applyOp s op with
  | ok s' =>
    rw [happ] at h
    exact absurd h (by simp [isOk])
  | error e => rfl

/-- Counterexample to C5 as stated: the backend admin endpoint
`POST /api/admin/update-parameters` performs no validation.  Starting from
the server's initial parameters (base price 0.002 ether, pro price
0.001 ether), a request carrying only `proMintPrice = 0.003 ether` is
committed even though it sets `proMintPrice > baseMintPrice`, and the
stored parameters change. -/
theorem claim_C5_counterexample :
    (serverUpdateParameters serverInitParams none none none
      (some 3000000000000000) none none).proMintPrice = 3000000000000000 ∧
    serverInitParams.baseMintPrice < 3000000000000000 ∧
    (serverUpdateParameters serverInitParams none none none
      (some 3000000000000000) none none).baseMintPrice <
      (serverUpdateParameters serverInitParams none none none
        (some 3000000000000000) none none).proMintPrice ∧
    serverUpdateParameters serverInitParams none none none
      (some 3000000000000000) none none ≠ serverInitParams :=
  ⟨rfl, by decide, by decide, by decide⟩

/-- C5 (amended): every CONTRACT parameter-update operation that would set
`proMintPrice > baseMintPrice` or `maxFid < minFid` reverts as a whole and
leaves the stored state unchanged (`updateMintingParams`, `updateFidRange`
and `updateMintPrices`); the backend admin endpoint, by contrast, applies
updates without these validations. -/
theorem claim_C5_contract_updates_reject :
    ∀ (s : ContractState) (mn mx b p ms b2 p2 : Nat),
      (b < p → isOk (updateMintingParams s mn mx b p ms) = false ∧
        step s (Op.updateMintingParams mn mx b p ms) = s) ∧
      (mx < mn → isOk (updateMintingParams s mn mx b p ms) = false ∧
        step s (Op.updateMintingParams mn mx b p ms) = s) ∧
      (mx < mn → isOk (updateFidRange s mn mx) = false ∧
        step s (Op.updateFidRange mn mx) = s) ∧
      (b2 < p2 → isOk (updateMintPrices s b2 p2) = false ∧
        step s (Op.updateMintPrices b2 p2) = s) := by
  intro s mn mx b p ms b2 p2
  have hparams : ∀ hv : b < p ∨ mx < mn,
      isOk (updateMintingParams s mn mx b p ms) = false := by
    intro hv
    unfold updateMintingParams
    repeat' split
    all_goals simp_all [isOk]
  have hrange : mx < mn → isOk (updateFidRange s mn mx) = false := by
    intro hv
    unfold updateFidRange
    split
    · rfl
    · simp_all
  have hprices : b2 < p2 → isOk (updateMintPrices s b2 p2) = false := by
    intro hv
    unfold updateMintPrices
    split
    · rfl
    · simp_all
  refine ⟨fun hv => ⟨hparams (Or.inl hv), ?_⟩,
    fun hv => ⟨hparams (Or.inr hv), ?_⟩,
    fun hv => ⟨hrange hv, ?_⟩, fun hv => ⟨hprices hv, ?_⟩⟩
  · exact step_eq_self_of_isOk_false (hparams (Or.inl hv))
  · exact step_eq_self_of_isOk_false (hparams (Or.inr hv))
  · exact step_eq_self_of_isOk_false (hrange hv)
  · exact step_eq_self_of_isOk_false (hprices hv)

/-- Witness for C5: on the demo deployment, an update setting pro price 20
above base price 10 is rejected and leaves the state unchanged. -/
theorem claim_C5_witness :
    (10 : Nat) < 20 ∧
    isOk (updateMintPrices demoState 10 20) = false ∧
    step demoState (Op.updateMintPrices 10 20) = demoState :=
  ⟨by decide,
   ((claim_C5_contract_updates_reject demoState 1 1 1 1 1 10 20).2.2.2
     (by decide)).1,
   ((claim_C5_contract_updates_reject demoState 1 1 1 1 1 10 20).2.2.2
     (by decide)).2⟩

/-- C6: while `paused` is true every `mint` fails with `MintingPaused`
regardless of fid, payment or any other condition; `pause` sets only the
`paused` flag and `unpause` only clears it, so pausing and unpausing
restores the exact prior state and with it every fid's eligibility
outcome. -/
theorem claim_C6_pause_frame :
    ∀ s : ContractState,
      (s.paused = true → ∀ (toAddr : Nat) (uri : String) (fid value : Nat),
        mint s toAddr uri fid value = Except.error MintError.MintingPaused) ∧
      (s.paused = false →
        pause s = Except.ok { s with paused := true } ∧
        unpause { s with paused := true } = Except.ok s ∧
        run s [Op.pause, Op.unpause] = s ∧
        (∀ fid, isEligible (run s [Op.pause, Op.unpause]) fid =
          isEligible s fid)) := by
  intro s
  constructor
  · intro hp toAddr uri fid value
    unfold mint
    simp [hp]
  · intro hp
    have hcollapse : ({ s with paused := false } : ContractState) = s := by
      cases s
      simp_all
    have hpause : pause s = Except.ok { s with paused := true } := by
      unfold pause
      simp [hp]
    have hunpause : unpause { s with paused := true } = Except.ok s := by
      unfold unpause
      simpa using hcollapse
    have hrun : run s [Op.pause, Op.unpause] = s := by
      unfold run
      simp only [List.foldl]
      have h1 : step s Op.pause = { s with paused := true } := by
        unfold step applyOp
        rw [hpause]
      have h2 : step { s with paused := true } Op.unpause = s := by
        unfold step applyOp
        rw [hunpause]
      rw [h1, h2]
    exact ⟨hpause, hunpause, hrun, fun fid => by rw [hrun]⟩

/-- Witness for C6: pausing the demo deployment blocks a previously valid
mint with `MintingPaused`, and pausing then unpausing restores the state. -/
theorem claim_C6_witness :
    (({ demoState with paused := true } : ContractState).paused = true ∧
     mint { demoState with paused := true } 3 "u" 50 10 =
       Except.error MintError.MintingPaused) ∧
    (demoState.paused = false ∧
     run demoState [Op.pause, Op.unpause] = demoState) :=
  ⟨⟨rfl, (claim_C6_pause_frame { demoState with paused := true }).1 rfl
      3 "u" 50 10⟩,
   ⟨rfl, ((claim_C6_pause_frame demoState).2 rfl).2.2.1⟩⟩

/-- C7: a successful `mint` sets the fid's `hasMinted` flag, increments
`currentSupply` by exactly one, and returns the current counter value as
token id, afterwards bumping the counter; token ids are therefore strictly
increasing across successful mints separated by any operations (the counter
starts at 0 and no operation ever decreases it, so ids are never reused —
the contract exposes no burn entry point and `_burn` never touches the
counter).  Concretely, on a fresh deployment with `minFid = 1`,
`maxFid = 100`, base price 10, pro price 5, the first mint for fid 50 with
payment 10 succeeds, returns token id 0 and leaves `currentSupply = 1`. -/
theorem claim_C7_mint_success_effects :
    (∀ (s : ContractState) (toAddr : Nat) (uri : String) (fid value : Nat)
        (s1 : ContractState) (t1 : Nat),
      mint s toAddr uri fid value = Except.ok (s1, t1) →
      t1 = s.tokenIdCounter ∧
      s1.tokenIdCounter = t1 + 1 ∧
      s1.hasMinted fid = true ∧
      s1.mintingParams.currentSupply = s.mintingParams.currentSupply + 1 ∧
      (∀ (ops : List Op) (a2 : Nat) (u2 : String) (f2 v2 : Nat)
          (s2 : ContractState) (t2 : Nat),
        mint (run s1 ops) a2 u2 f2 v2 = Except.ok (s2, t2) → t1 < t2)) ∧
    ((initState 1 2 1 100 10 5 100).tokenIdCounter = 0 ∧
     mint (initState 1 2 1 100 10 5 100) 3 "u" 50 10 =
       Except.ok (demoAfter, 0) ∧
     demoAfter.mintingParams.currentSupply = 1) := by
  constructor
  · intro s toAddr uri fid value s1 t1 h
    obtain ⟨-, -, -, -, -, -, -, ht, hs⟩ := mint_ok_inv h
    have hctr : s1.tokenIdCounter = s.tokenIdCounter + 1 := by rw [hs]
    have hmt : s1.hasMinted fid = true := by
      rw [hs]
      simp [setMap]
    have hsup : s1.mintingParams.currentSupply =
        s.mintingParams.currentSupply + 1 := by rw [hs]
    subst ht
    refine ⟨rfl, hctr, hmt, hsup, ?_⟩
    intro ops a2 u2 f2 v2 s2 t2 h2
    obtain ⟨-, -, -, -, -, -, -, ht2, -⟩ := mint_ok_inv h2
    have hmono := (run_inv ops s1).2.1
    omega
  · exact ⟨rfl, rfl, rfl⟩

/-- Witness for C7: the demo scenario instantiates the general part. -/
theorem claim_C7_witness :
    mint demoState 3 "u" 50 10 = Except.ok (demoAfter, 0) ∧
    (0 : Nat) = demoState.tokenIdCounter ∧
    demoAfter.hasMinted 50 = true :=
  ⟨rfl,
   (claim_C7_mint_success_effects.1 demoState 3 "u" 50 10 demoAfter 0 rfl).1,
   (claim_C7_mint_success_effects.1 demoState 3 "u" 50 10 demoAfter 0
     rfl).2.2.1⟩

/-- Counterexample to C8 as stated: the contract performs no standalone
"fid is a valid positive identifier" check.  The constructor accepts
`minFid = 0`, and on that deployment a `mint` for fid 0 succeeds instead of
aborting at the claimed first precondition. -/
theorem claim_C8_counterexample :
    constructorFn 1 2 0 10 5 3 100 = Except.ok zeroFidState ∧
    (mint zeroFidState 7 "u" 0 5).map Prod.snd = Except.ok 0 :=
  ⟨rfl, rfl⟩

/-- C8 (amended): `mint` checks, in order: the pause flag, a nonzero
recipient, `AlreadyMinted`, `FidOutOfRange`, `SupplyExhausted`, then
`InsufficientPayment`; there is no standalone positive-fid validation
(a fid of 0 is rejected only when it falls below `minFid`).  The first
violated check aborts with no state change, and the failure conditions are
pairwise distinct named errors. -/
theorem claim_C8_mint_check_order :
    ∀ (s : ContractState) (toAddr : Nat) (uri : String) (fid value : Nat),
      (s.paused = true →
        mint s toAddr uri fid value = Except.error MintError.MintingPaused) ∧
      (s.paused = false → toAddr = 0 →
        mint s toAddr uri fid value =
          Except.error MintError.ZeroAddressMint) ∧
      (s.paused = false → toAddr ≠ 0 → s.hasMinted fid = true →
        mint s toAddr uri fid value =
          Except.error MintError.AlreadyMinted) ∧
      (s.paused = false → toAddr ≠ 0 → s.hasMinted fid = false →
        ¬ (s.mintingParams.minFid ≤ fid ∧ fid ≤ s.mintingParams.maxFid) →
        mint s toAddr uri fid value =
          Except.error MintError.FidOutOfRange) ∧
      (s.paused = false → toAddr ≠ 0 → s.hasMinted fid = false →
        s.mintingParams.minFid ≤ fid → fid ≤ s.mintingParams.maxFid →
        ¬ s.mintingParams.currentSupply < s.mintingParams.maxSupply →
        mint s toAddr uri fid value =
          Except.error MintError.SupplyExhausted) ∧
      (s.paused = false → toAddr ≠ 0 → s.hasMinted fid = false →
        s.mintingParams.minFid ≤ fid → fid ≤ s.mintingParams.maxFid →
        s.mintingParams.currentSupply < s.mintingParams.maxSupply →
        value < getMintPrice s fid (s.isProUser fid) →
        mint s toAddr uri fid value =
          Except.error MintError.InsufficientPayment) ∧
      (isOk (mint s toAddr uri fid value) = false →
        step s (Op.mint toAddr uri fid value) = s) ∧
      List.Pairwise (fun a b => a ≠ b)
        [MintError.MintingPaused, MintError.ZeroAddressMint,
         MintError.AlreadyMinted, MintError.FidOutOfRange,
         MintError.SupplyExhausted, MintError.InsufficientPayment] := by
  intro s toAddr uri fid value
  refine ⟨?_, ?_, ?_, ?_, ?_, ?_, ?_, by decide⟩
  · intro h1
    unfold mint
    simp [h1]
  · intro h1 h2
    unfold mint
    simp [h1, h2]
  · intro h1 h2 h3
    unfold mint
    simp [h1, h2, h3]
  · intro h1 h2 h3 h4
    unfold mint
    simp [h1, h2, h3, h4]
  · intro h1 h2 h3 h4 h5 h6
    unfold mint
    simp [h1, h2, h3, h4, h5, h6]
  · intro h1 h2 h3 h4 h5 h6 h7
    unfold mint
    simp [h1, h2, h3, h4, h5, h6, h7]
  · intro hfail
    apply step_eq_self_of_isOk_false
    simp only [applyOp]
    cases hres : mint s toAddr uri fid value with
    | ok p =>
      rw [hres] at hfail
      exact absurd hfail (by simp [isOk])
    | error e => simp [Except.map, isOk]

/-- Witness for C8: on a paused demo deployment a fully valid mint request
still fails first with `MintingPaused`. -/
theorem claim_C8_witness :
    ({ demoState with paused := true } : ContractState).paused = true ∧
    mint { demoState with paused := true } 3 "u" 50 10 =
      Except.error MintError.MintingPaused :=
  ⟨rfl,
   (claim_C8_mint_check_order { demoState with paused := true }
     3 "u" 50 10).1 rfl⟩

/-- Counterexample to C9 as stated: the constructor performs no check
relating `_minFid` and `_maxFid`, so a deployment with `minFid = 2`,
`maxFid = 1` is accepted and the invariant `maxFid >= minFid` is NOT
established at initialization. -/
theorem claim_C9_counterexample :
    constructorFn 1 2 2 1 5 3 10 = Except.ok (initState 1 2 2 1 5 3 10) ∧
    (initState 1 2 2 1 5 3 10).mintingParams.maxFid <
      (initState 1 2 2 1 5 3 10).mintingParams.minFid :=
  ⟨rfl, by decide⟩

/-- C9 (amended): `minFid <= maxFid` is preserved by every operation (and
every operation sequence) — `updateFidRange` and `updateMintingParams`, the
only writers of the bounds, both require `_maxFid >= _minFid` — but it is
not established by the constructor, which accepts any bounds. -/
theorem claim_C9_fid_range_preserved :
    (∀ (s : ContractState) (op : Op),
      s.mintingParams.minFid ≤ s.mintingParams.maxFid →
      (step s op).mintingParams.minFid ≤ (step s op).mintingParams.maxFid) ∧
    (∀ (s : ContractState) (ops : List Op),
      s.mintingParams.minFid ≤ s.mintingParams.maxFid →
      (run s ops).mintingParams.minFid ≤ (run s ops).mintingParams.maxFid) :=
  ⟨fun s op => (step_inv s op).2.2.2, fun s ops => (run_inv ops s).2.2.2⟩

/-- Witness for C9: the demo range 1..100 stays well ordered across an
accepted range update. -/
theorem claim_C9_witness :
    demoState.mintingParams.minFid ≤ demoState.mintingParams.maxFid ∧
    (step demoState (Op.updateFidRange 10 20)).mintingParams.minFid ≤
      (step demoState (Op.updateFidRange 10 20)).mintingParams.maxFid :=
  ⟨by decide,
   claim_C9_fid_range_preserved.1 demoState (Op.updateFidRange 10 20)
     (by decide)⟩

/-- With all three lists of equal length, projecting the fid component out
of the zipped batch entries recovers the fid list. -/
theorem zip_map_fid (recipients : List Nat) :
    ∀ (tokenURIs : List String) (fids : List Nat),
      recipients.length = tokenURIs.length →
      recipients.length = fids.length →
      (recipients.zip (tokenURIs.zip fids)).map (fun e => e.2.2) = fids := by
  induction recipients with
  | nil =>
    intro tokenURIs fids _ h2
    have : fids = [] := List.length_eq_zero.mp (by simpa using h2.symm)
    simp [this]
  | cons r rest ih =>
    intro tokenURIs fids h1 h2
    cases tokenURIs with
    | nil => simp at h1
    | cons u us =>
      cases fids with
      | nil => simp at h2
      | cons f fs =>
        simp only [List.zip_cons_cons, List.map_cons, List.cons.injEq]
        exact ⟨by trivial, ih us fs (by simpa using h1) (by simpa using h2)⟩

/-- Success of the `batchMint` loop: when every entry has a nonzero
recipient, the fids are pairwise distinct and fresh, and the supply cap
leaves room for the whole batch, the loop commits every entry.  No
hypothesis on the pause flag, the FID range or any payment is needed. -/
theorem batchMintLoop_ok (l : List (Nat × String × Nat)) :
    ∀ s : ContractState,
      (∀ e ∈ l, e.1 ≠ 0) →
      (l.map (fun e => e.2.2)).Nodup →
      (∀ e ∈ l, s.hasMinted e.2.2 = false) →
      s.mintingParams.currentSupply + l.length ≤
        s.mintingParams.maxSupply →
      ∃ s', batchMintLoop s l = Except.ok s' ∧
        (∀ e ∈ l, s'.hasMinted e.2.2 = true) ∧
        s'.mintingParams.currentSupply =
          s.mintingParams.currentSupply + l.length ∧
        (∀ f, s.hasMinted f = true → s'.hasMinted f = true) := by
  induction l with
  | nil =>
    intro s _ _ _ _
    refine ⟨s, rfl, ?_, by simp, fun f hf => hf⟩
    intro e he
    simp at he
  | cons e rest ih =>
    intro s hnz hnd hfresh hsup
    obtain ⟨toAddr, uri, fid⟩ := e
    have hfid : s.hasMinted fid = false := hfresh _ (List.mem_cons_self _ _)
    have hto : toAddr ≠ 0 := hnz _ (List.mem_cons_self _ _)
    have hroom : s.mintingParams.currentSupply <
        s.mintingParams.maxSupply := by
      simp only [List.length_cons] at hsup
      omega
    have hnotin : fid ∉ rest.map (fun e => e.2.2) := by
      simp only [List.map_cons, List.nodup_cons] at hnd
      exact hnd.1
    set s1 : ContractState := { s with
      tokenIdCounter := s.tokenIdCounter + 1
      owners := setMap s.owners s.tokenIdCounter toAddr
      tokenURIMap := setMap s.tokenURIMap s.tokenIdCounter uri
      hasMinted := setMap s.hasMinted fid true
      fidToTokenId := setMap s.fidToTokenId fid s.tokenIdCounter
      tokenIdToFid := setMap s.tokenIdToFid s.tokenIdCounter fid
      mintingParams := { s.mintingParams with
        currentSupply := s.mintingParams.currentSupply + 1 } } with hs1
    have hfresh1 : ∀ e ∈ rest, s1.hasMinted e.2.2 = false := by
      intro e he
      have hne : e.2.2 ≠ fid := by
        intro hcontra
        exact hnotin (hcontra ▸ List.mem_map_of_mem (fun e => e.2.2) he)
      have : s.hasMinted e.2.2 = false := hfresh _ (List.mem_cons_of_mem _ he)
      simpa [hs1, setMap, hne] using this
    have hsup1 : s1.mintingParams.currentSupply + rest.length ≤
        s1.mintingParams.maxSupply := by
      simp only [hs1, List.length_cons] at hsup ⊢
      omega
    have hnd1 : (rest.map (fun e => e.2.2)).Nodup := by
      simp only [List.map_cons, List.nodup_cons] at hnd
      exact hnd.2
    have hnz1 : ∀ e ∈ rest, e.1 ≠ 0 :=
      fun e he => hnz _ (List.mem_cons_of_mem _ he)
    obtain ⟨s', hrun, hset, hcount, hpres⟩ := ih s1 hnz1 hnd1 hfresh1 hsup1
    refine ⟨s', ?_, ?_, ?_, ?_⟩
    · unfold batchMintLoop
      rw [if_neg (by simp [hfid]), if_neg (by simpa using hroom),
        if_neg (by simpa using hto)]
      exact hrun
    · intro e he
      rcases List.mem_cons.mp he with he1 | he2
      · subst he1
        apply hpres
        simp [hs1, setMap]
      · exact hset _ he2
    · rw [hcount]
      simp only [hs1, List.length_cons]
      omega
    · intro f hf
      apply hpres
      simp only [hs1, setMap]
      split <;> simp_all

/-- C10: the owner-only `batchMint` enforces per entry only that the fid
has not minted and that the supply cap leaves room (plus, from the
underlying ERC-721 `_safeMint`, a nonzero recipient): it succeeds with no
payment, for fids outside the `[minFid, maxFid]` range, and even while
paused, setting `hasMinted` and incrementing `currentSupply` for every
entry.  Note the absence of any pause, range or payment hypothesis. -/
theorem claim_C10_batchMint_success (s : ContractState)
    (recipients : List Nat) (tokenURIs : List String) (fids : List Nat)
    (hlen1 : recipients.length = tokenURIs.length)
    (hlen2 : recipients.length = fids.length)
    (hnz : ∀ r ∈ recipients, r ≠ 0)
    (hnd : fids.Nodup)
    (hfresh : ∀ f ∈ fids, s.hasMinted f = false)
    (hsup : s.mintingParams.currentSupply + fids.length ≤
      s.mintingParams.maxSupply) :
    ∃ s', batchMint s recipients tokenURIs fids = Except.ok s' ∧
      (∀ f ∈ fids, s'.hasMinted f = true) ∧
      s'.mintingParams.currentSupply =
        s.mintingParams.currentSupply + fids.length := by
  have hmap : (recipients.zip (tokenURIs.zip fids)).map (fun e => e.2.2)
      = fids := zip_map_fid recipients tokenURIs fids hlen1 hlen2
  have hlenzip : (recipients.zip (tokenURIs.zip fids)).length = fids.length
    := by
    rw [List.length_zip, List.length_zip]
    omega
  obtain ⟨s', hrun, hset, hcount, -⟩ :=
    batchMintLoop_ok (recipients.zip (tokenURIs.zip fids)) s
      (fun e he => hnz e.1 (List.of_mem_zip he).1)
      (by rw [hmap]; exact hnd)
      (fun e he =>
        hfresh e.2.2 (List.of_mem_zip (List.of_mem_zip he).2).2)
      (by rw [hlenzip]; exact hsup)
  refine ⟨s', ?_, ?_, by rw [hcount, hlenzip]⟩
  · unfold batchMint
    rw [if_pos ⟨hlen1, hlen2⟩]
    exact hrun
  · intro f hf
    rw [← hmap] at hf
    obtain ⟨e, he, hef⟩ := List.mem_map.mp hf
    exact hef ▸ hset e he

/-- Witness for C10: on the paused demo deployment, a two-entry batch for
fids 200 and 300 — both outside the range 1..100 — succeeds with zero
payment and commits both entries. -/
theorem claim_C10_witness :
    (∀ r ∈ ([3, 4] : List Nat), r ≠ 0) ∧
    ([200, 300] : List Nat).Nodup ∧
    (∀ f ∈ ([200, 300] : List Nat),
      ({ demoState with paused := true } : ContractState).hasMinted f
        = false) ∧
    ∃ s', batchMint { demoState with paused := true } [3, 4] ["a", "b"]
        [200, 300] = Except.ok s' ∧
      (∀ f ∈ ([200, 300] : List Nat), s'.hasMinted f = true) ∧
      s'.mintingParams.currentSupply =
        ({ demoState with paused := true } :
          ContractState).mintingParams.currentSupply + 2 :=
  ⟨by decide, by decide, by decide,
   claim_C10_batchMint_success { demoState with paused := true }
     [3, 4] ["a", "b"] [200, 300] rfl rfl (by decide) (by decide)
     (by decide) (by decide)⟩

/-- Counterexample to C10 as stated: an entry whose two claimed conditions
hold (fid 7 is fresh and supply has room) still fails when the recipient is
the zero address, because `_safeMint` rejects it. -/
theorem claim_C10_counterexample :
    demoState.hasMinted 7 = false ∧
    demoState.mintingParams.currentSupply <
      demoState.mintingParams.maxSupply ∧
    batchMint demoState [0] ["u"] [7] =
      Except.error MintError.ZeroAddressMint :=
  ⟨rfl, by decide, rfl⟩

end CyberProfile
